import Mathlib

/-!
Room booking backend (`src/index.js`).

A shallow embedding of the room store and of the handlers of `index.js`:
`initializeRooms`, `GET /rooms`, `POST /book`, `POST /reset`, `POST /random`.

Modelling conventions.
* The `rooms` collection is a list of records in the store's natural order.  The
  position of a record in the collection plays the role of its `_id`: it is
  unique, it never changes, and `save` addresses a record through it.
* Store calls always resolve (the `catch` branches, which answer 500, are outside
  the model), so a handler is a function from the store to a response and the
  next store.
* `await` points are the only places where two requests can interleave; the
  booking handler is therefore also given as a step function (`stepReq`) whose
  steps are "run up to the `find`" and "run the save loop".
* The outcomes of `Math.random()` are parameters of `random`.  A Number is the
  rational it denotes; the one arithmetic operation of the file that rounds,
  the product inside `Math.floor`, is rounded as binary64 does (`roundDouble`).
-/

namespace BackMov

/-- A persisted record of `RoomSchema`: `{ roomNumber: Number, occupied: Boolean }`. -/
structure Room where
  roomNumber : Int
  occupied : Bool
deriving DecidableEq, Repr

/-- The `rooms` collection, in natural order. -/
abbrev Store := List Room

/-- A fetched document: the record together with the `_id` it was read from
(its position in the collection). -/
structure Doc where
  id : Nat
  roomNumber : Int
  occupied : Bool
deriving DecidableEq, Repr

/-- What a handler sends back. -/
inductive Response where
  | rooms (body : List Doc)
  | booked (booked : List Doc)
  | message (message : String)
  | randomized (message : String) (updated : Nat)
  | error (status : Nat) (error : String)
deriving DecidableEq, Repr

/-- The call `Room.countDocuments()`. -/
def countDocuments (s : Store) : Nat := s.length

/-- The call `Room.insertMany(rooms)`: the batch is appended to the collection. -/
def insertMany (rooms : List Room) (s : Store) : Store := s ++ rooms

/-- The documents of a collection whose first record has `_id` `k`. -/
def findFrom : Nat → Store → List Doc
  | _, [] => []
  | k, r :: rs => ⟨k, r.roomNumber, r.occupied⟩ :: findFrom (k + 1) rs

/-- The query `Room.find()`. -/
def find (s : Store) : List Doc := findFrom 0 s

/-- The query `Room.find({ occupied: false })`. -/
def findUnoccupied (s : Store) : List Doc :=
  (find s).filter (fun d => d.occupied == false)

/-- The write of `room.save()` after `room.occupied = b`: the record with
`_id` `i` gets `occupied = b`, every other field and record is left alone. -/
def setOccupied : Nat → Bool → Store → Store
  | _, _, [] => []
  | 0, b, r :: rs => { r with occupied := b } :: rs
  | i + 1, b, r :: rs => r :: setOccupied i b rs

/-- The call `room.save()` on a document whose `occupied` was just assigned: the
assigned value is written to the record the document was read from. -/
def save (room : Doc) (s : Store) : Store := setOccupied room.id room.occupied s

/-- The call `Room.updateMany({}, { occupied: false })`. -/
def updateManyUnoccupied (s : Store) : Store :=
  s.map (fun r => { r with occupied := false })

/-- Number of records with `occupied = true`. -/
def occupiedCount (s : Store) : Nat := s.countP (fun r => r.occupied)

/-- Number of records with `occupied = false`. -/
def unoccupiedCount (s : Store) : Nat := s.countP (fun r => !r.occupied)

/-- The bound `let roomLimit = (floor === 10) ? 7 : 10`. -/
def roomLimit (floor : Nat) : Nat := if floor = 10 then 7 else 10

/-- The two nested `for` loops of `initializeRooms`: floors 1 to 10, on each
floor the indices 1 to `roomLimit`, pushing `floor * 100 + i`. -/
def generatedRooms : List Room :=
  (List.range' 1 10).flatMap fun floor =>
    (List.range' 1 (roomLimit floor)).map fun i =>
      { roomNumber := (floor : Int) * 100 + (i : Int), occupied := false }

/-- The startup routine `initializeRooms`: populate the collection when it holds no record. -/
def initializeRooms (s : Store) : Store :=
  if countDocuments s = 0 then insertMany generatedRooms s else s

/-- Handler of `GET /rooms`. -/
def getRooms (s : Store) : Response × Store := (.rooms (find s), s)

/-- The loop `for (const room of availableRooms) { room.occupied = true; await room.save(); }`:
returns the mutated documents and the store after the saves. -/
def bookLoop : List Doc → Store → List Doc × Store
  | [], s => ([], s)
  | room :: rest, s =>
    let room1 : Doc := { room with occupied := true }
    let out := bookLoop rest (save room1 s)
    (room1 :: out.1, out.2)

/-- The query `Room.find({ occupied: false }).limit(count)`. -/
def findAvailable (count : Int) (s : Store) : List Doc :=
  (findUnoccupied s).take count.toNat

/-- Handler of `POST /book` with body `{ count }`. -/
def book (count : Int) (s : Store) : Response × Store :=
  if count < 1 ∨ count > 5 then (.error 400 "Invalid room count", s)
  else
    let availableRooms := findAvailable count s
    if (availableRooms.length : Int) < count then
      (.error 400 "Not enough rooms available", s)
    else
      let out := bookLoop availableRooms s
      (.booked out.1, out.2)

/-- Handler of `POST /reset`. -/
def reset (s : Store) : Response × Store :=
  (.message "All rooms have been reset", updateManyUnoccupied s)

/-- The array method `xs.slice(0, e)` for an integer `e`: a negative end counts from the end of
the array, and the end is clamped to the array. -/
def slice0 {α : Type} (xs : List α) (e : Int) : List α :=
  if e < 0 then xs.take ((xs.length : Int) + e).toNat else xs.take e.toNat

/-- The loop `for (let room of randomRooms) { room.occupied = Math.random() < 0.5; await room.save(); }`;
`coin k` is the draw made for the `k`-th room of the loop. -/
def randomLoop (coin : Nat → ℚ) : Nat → List Doc → Store → Store
  | _, [], s => s
  | k, room :: rest, s =>
    randomLoop coin (k + 1) rest (save { room with occupied := decide (coin k < 1 / 2) } s)

/-- Round to the nearest integer, a tie going to the even neighbour. -/
def roundHalfEven (x : ℚ) : ℤ :=
  if x - (⌊x⌋ : ℚ) < 1 / 2 then ⌊x⌋
  else if 1 / 2 < x - (⌊x⌋ : ℚ) then ⌊x⌋ + 1
  else if ⌊x⌋ % 2 = 0 then ⌊x⌋ else ⌊x⌋ + 1

/-- The spacing of the binary64 values around `q ≥ 0`: 53 significant bits in
the binade of `q`, and the fixed spacing `2 ^ (-1074)` below `2 ^ (-1022)`. -/
def ulp (q : ℚ) : ℚ := (2 : ℚ) ^ (max (Int.log 2 q) (-1022) - 52)

/-- The binary64 value an exact result `q` is rounded to (round to nearest, ties
to even, on the magnitude).  Overflow to `Infinity` is not represented: the
results rounded here are below the length of an array. -/
def roundDouble (q : ℚ) : ℚ :=
  if q < 0 then -((roundHalfEven (-q / ulp (-q)) : ℚ) * ulp (-q))
  else (roundHalfEven (q / ulp q) : ℚ) * ulp q

/-- Handler of `POST /random`.  The random outcomes are parameters: `shuffle` is what
`[...rooms].sort(() => Math.random() - 0.5)` returns for the fetched array, `r`
is the draw inside `slice`, `coin` the draws of the loop.
`Math.random() * rooms.length` is the binary64 product, the exact product
rounded by `roundDouble` (`rooms.length` is an integer below `2 ^ 32`, exact as
a Number); `Math.floor` of a binary64 value is exact. -/
def random (shuffle : List Doc → List Doc) (r : ℚ) (coin : Nat → ℚ) (s : Store) :
    Response × Store :=
  let rooms := find s
  let shuffledRooms := shuffle rooms
  let randomRooms := slice0 shuffledRooms ⌊roundDouble (r * (rooms.length : ℚ))⌋
  (.randomized "Random occupancy updated" randomRooms.length,
    randomLoop coin 0 randomRooms s)

/-- A booking request in flight: not started, suspended after the `find` with
the fetched documents in hand, or answered. -/
inductive Req where
  | start (count : Int)
  | fetched (availableRooms : List Doc)
  | done (response : Response)
deriving DecidableEq, Repr

/-- One step of a booking request: from the start up to the answer of the
`find` (validation and the inventory check included), or the save loop and the
response. -/
def stepReq : Req → Store → Req × Store
  | .start count, s =>
    if count < 1 ∨ count > 5 then (.done (.error 400 "Invalid room count"), s)
    else
      let availableRooms := findAvailable count s
      if (availableRooms.length : Int) < count then
        (.done (.error 400 "Not enough rooms available"), s)
      else (.fetched availableRooms, s)
  | .fetched availableRooms, s =>
    let out := bookLoop availableRooms s
    (.done (.booked out.1), out.2)
  | .done response, s => (.done response, s)

/-- Two booking requests sharing one store. -/
structure Pair where
  first : Req
  second : Req
  store : Store
deriving DecidableEq, Repr

/-- The scheduler lets the first (`false`) or the second (`true`) request take
its next step. -/
def stepPair (p : Pair) (who : Bool) : Pair :=
  if who then
    let out := stepReq p.second p.store
    { p with second := out.1, store := out.2 }
  else
    let out := stepReq p.first p.store
    { p with first := out.1, store := out.2 }

/-- Run a schedule. -/
def runPair (schedule : List Bool) (p : Pair) : Pair := schedule.foldl stepPair p

/-- The store after a sequence of booking requests, one after the other. -/
def bookAll (counts : List Int) (s : Store) : Store :=
  counts.foldl (fun st count => (book count st).2) s

/-- First-`n` marking: the records of the first `n` unoccupied rooms, in natural
order, become occupied. -/
def markFirst : Nat → Store → Store
  | _, [] => []
  | n, r :: rs =>
    if r.occupied then r :: markFirst n rs
    else
      match n with
      | 0 => r :: rs
      | m + 1 => { r with occupied := true } :: markFirst m rs


/-! Store lemmas -/

theorem setOccupied_length (i : Nat) (b : Bool) (s : Store) :
    (setOccupied i b s).length = s.length := by
  induction s generalizing i with
  | nil => cases i <;> rfl
  | cons r rs ih => cases i <;> simp [setOccupied, ih]

theorem setOccupied_roomNumbers (i : Nat) (b : Bool) (s : Store) :
    (setOccupied i b s).map Room.roomNumber = s.map Room.roomNumber := by
  induction s generalizing i with
  | nil => cases i <;> rfl
  | cons r rs ih => cases i <;> simp [setOccupied, ih]

theorem setOccupied_append (pre : Store) (b : Bool) (r : Room) (rs : Store) :
    setOccupied pre.length b (pre ++ r :: rs) = pre ++ { r with occupied := b } :: rs := by
  induction pre with
  | nil => rfl
  | cons p ps ih => simp [setOccupied, ih]

theorem markFirst_zero (s : Store) : markFirst 0 s = s := by
  induction s with
  | nil => rfl
  | cons r rs ih => cases h : r.occupied <;> simp [markFirst, h, ih]

theorem markFirst_roomNumbers (n : Nat) (s : Store) :
    (markFirst n s).map Room.roomNumber = s.map Room.roomNumber := by
  induction s generalizing n with
  | nil => rfl
  | cons r rs ih =>
    cases h : r.occupied
    · cases n <;> simp [markFirst, h, ih]
    · simp [markFirst, h, ih]

theorem occupiedCount_markFirst (n : Nat) (s : Store) :
    occupiedCount (markFirst n s) = occupiedCount s + min n (unoccupiedCount s) := by
  induction s generalizing n with
  | nil => simp [markFirst, occupiedCount, unoccupiedCount]
  | cons r rs ih =>
    cases h : r.occupied
    · cases n with
      | zero => simp [markFirst, h, occupiedCount, unoccupiedCount]
      | succ m =>
        have := ih m
        simp only [occupiedCount, unoccupiedCount] at this ⊢
        simp [markFirst, h, List.countP_cons, this]
        omega
    · have := ih n
      simp only [occupiedCount, unoccupiedCount] at this ⊢
      simp [markFirst, h, List.countP_cons, this]
      omega

theorem bookLoop_fst (ds : List Doc) (s : Store) :
    (bookLoop ds s).1 = ds.map (fun d => { d with occupied := true }) := by
  induction ds generalizing s with
  | nil => rfl
  | cons d ds ih => simp [bookLoop, ih]

theorem bookLoop_roomNumbers (ds : List Doc) (s : Store) :
    (bookLoop ds s).2.map Room.roomNumber = s.map Room.roomNumber := by
  induction ds generalizing s with
  | nil => rfl
  | cons d ds ih => simp [bookLoop, ih, save, setOccupied_roomNumbers]

theorem findFrom_length (k : Nat) (s : Store) : (findFrom k s).length = s.length := by
  induction s generalizing k with
  | nil => rfl
  | cons r rs ih => simp [findFrom, ih]

theorem findFrom_unoccupied_length (k : Nat) (s : Store) :
    ((findFrom k s).filter (fun d => d.occupied == false)).length = unoccupiedCount s := by
  induction s generalizing k with
  | nil => rfl
  | cons r rs ih =>
    have := ih (k + 1)
    simp only [unoccupiedCount] at this ⊢
    cases h : r.occupied <;> simp [findFrom, h, List.filter_cons, List.countP_cons, this]
      <;> simpa using this

/-- The save loop of a booking, run on the first `n` unoccupied documents of the
part `s` of the collection that starts at `_id` `pre.length`, marks exactly
those records; each fetched document is then stored as occupied under its `_id`. -/
theorem bookLoop_markFirst (s : Store) : ∀ (pre : Store) (n : Nat),
    (bookLoop (((findFrom pre.length s).filter (fun d => d.occupied == false)).take n)
        (pre ++ s)).2 = pre ++ markFirst n s ∧
    ∀ d ∈ ((findFrom pre.length s).filter (fun d => d.occupied == false)).take n,
      (pre ++ markFirst n s)[d.id]? = some ⟨d.roomNumber, true⟩ := by
  induction s with
  | nil => intro pre n; simp [findFrom, bookLoop, markFirst]
  | cons r rs ih =>
    intro pre n
    cases h : r.occupied
    · cases n with
      | zero => simp [bookLoop, markFirst_zero]
      | succ m =>
        have ih1 := ih (pre ++ [{ r with occupied := true }]) m
        simp only [List.length_append, List.length_singleton, List.append_assoc,
          List.singleton_append] at ih1
        simp only [findFrom, h, List.filter_cons, beq_self_eq_true, if_true, List.take_succ_cons,
          bookLoop, save, setOccupied_append, markFirst, Bool.false_eq_true, if_false,
          List.mem_cons]
        refine ⟨ih1.1, ?_⟩
        rintro d (rfl | hd)
        · rw [List.getElem?_append_right (le_refl _)]
          simp
        · exact ih1.2 d hd
    · have ih1 := ih (pre ++ [r]) n
      simp only [List.length_append, List.length_singleton, List.append_assoc,
        List.singleton_append] at ih1
      simpa [findFrom, h, List.filter_cons, markFirst] using ih1

theorem findAvailable_eq (n : Nat) (s : Store) :
    findAvailable (n : Int) s =
      ((findFrom 0 s).filter (fun d => d.occupied == false)).take n := by
  simp [findAvailable, findUnoccupied, find]

theorem findAvailable_length (n : Nat) (s : Store) :
    (findAvailable (n : Int) s).length = min n (unoccupiedCount s) := by
  rw [findAvailable_eq, List.length_take, findFrom_unoccupied_length]

theorem book_roomNumbers (count : Int) (s : Store) :
    (book count s).2.map Room.roomNumber = s.map Room.roomNumber := by
  unfold book
  split
  · rfl
  · simp only []
    split
    · rfl
    · exact bookLoop_roomNumbers _ _

/-! Booking -/

/-- C1: for `1 ≤ count ≤ 5` and a store with at least `count` unoccupied rooms,
`POST /book` answers 200 with exactly `count` documents, each of them occupied
and stored as occupied under its `_id`, and the number of occupied records
grows by exactly `count`. -/
theorem book_success (count : Int) (s : Store) (h1 : 1 ≤ count) (h5 : count ≤ 5)
    (hav : count ≤ (unoccupiedCount s : Int)) :
    ∃ booked : List Doc, (book count s).1 = .booked booked ∧
      (booked.length : Int) = count ∧
      (∀ d ∈ booked, d.occupied = true ∧
        (book count s).2[d.id]? = some ⟨d.roomNumber, true⟩) ∧
      (occupiedCount (book count s).2 : Int) = (occupiedCount s : Int) + count := by
  obtain ⟨n, rfl⟩ : ∃ n : Nat, count = (n : Int) := ⟨count.toNat, by omega⟩
  have hlen : (findAvailable (n : Int) s).length = n := by
    rw [findAvailable_length]; omega
  have hm := bookLoop_markFirst s [] n
  simp only [List.length_nil, List.nil_append, ← findAvailable_eq] at hm
  have hbook : book (n : Int) s =
      (.booked (bookLoop (findAvailable (n : Int) s) s).1,
        (bookLoop (findAvailable (n : Int) s) s).2) := by
    unfold book
    rw [if_neg (by omega)]
    simp [hlen]
  rw [hbook]
  refine ⟨_, rfl, ?_, ?_, ?_⟩
  · rw [bookLoop_fst, List.length_map, hlen]
  · intro d hd
    rw [bookLoop_fst, List.mem_map] at hd
    obtain ⟨d0, hd0, rfl⟩ := hd
    refine ⟨rfl, ?_⟩
    simp only []
    rw [hm.1]
    exact hm.2 d0 hd0
  · simp only []
    rw [hm.1, occupiedCount_markFirst]
    have : min n (unoccupiedCount s) = n := by omega
    rw [this]
    push_cast
    rfl

theorem book_success_witness :
    ∃ booked : List Doc,
      (book 2 [⟨101, true⟩, ⟨102, false⟩, ⟨103, false⟩, ⟨104, false⟩]).1 = .booked booked ∧
      (booked.length : Int) = 2 ∧
      (∀ d ∈ booked, d.occupied = true ∧
        (book 2 [⟨101, true⟩, ⟨102, false⟩, ⟨103, false⟩, ⟨104, false⟩]).2[d.id]? =
          some ⟨d.roomNumber, true⟩) ∧
      (occupiedCount (book 2 [⟨101, true⟩, ⟨102, false⟩, ⟨103, false⟩, ⟨104, false⟩]).2 : Int)
        = (occupiedCount [⟨101, true⟩, ⟨102, false⟩, ⟨103, false⟩, ⟨104, false⟩] : Int) + 2 :=
  book_success 2 [⟨101, true⟩, ⟨102, false⟩, ⟨103, false⟩, ⟨104, false⟩]
    (by decide) (by decide) (by decide)

/-- C2: `POST /book` answers 400 "Invalid room count" exactly when `count < 1` or
`count > 5`, whatever the store holds (so for 0, 6 and -1), and then the store
is the one it started from. -/
theorem book_invalid_iff (count : Int) (s : Store) :
    ((book count s).1 = .error 400 "Invalid room count" ↔ (count < 1 ∨ count > 5)) ∧
    ((book count s).1 = .error 400 "Invalid room count" → (book count s).2 = s) ∧
    book 0 s = (.error 400 "Invalid room count", s) ∧
    book 6 s = (.error 400 "Invalid room count", s) ∧
    book (-1) s = (.error 400 "Invalid room count", s) := by
  have key : (book count s).1 = .error 400 "Invalid room count" ↔ (count < 1 ∨ count > 5) := by
    unfold book
    split
    · simp [*]
    · simp only []
      split <;> simp [*]
  refine ⟨key, ?_, ?_, ?_, ?_⟩
  · intro h
    have hc := key.1 h
    unfold book
    rw [if_pos hc]
  · unfold book; rw [if_pos (by decide)]
  · unfold book; rw [if_pos (by decide)]
  · unfold book; rw [if_pos (by decide)]

theorem book_invalid_iff_witness :
    (book 7 [⟨101, false⟩, ⟨102, true⟩]).2 = [⟨101, false⟩, ⟨102, true⟩] :=
  (book_invalid_iff 7 [⟨101, false⟩, ⟨102, true⟩]).2.1 (by decide)

/-- C3: for `1 ≤ count ≤ 5` and a store with fewer than `count` unoccupied
rooms, `POST /book` answers 400 "Not enough rooms available" and the store, so
the occupancy of every record, is unchanged. -/
theorem book_insufficient (count : Int) (s : Store) (h1 : 1 ≤ count) (h5 : count ≤ 5)
    (hlt : (unoccupiedCount s : Int) < count) :
    book count s = (.error 400 "Not enough rooms available", s) := by
  obtain ⟨n, rfl⟩ : ∃ n : Nat, count = (n : Int) := ⟨count.toNat, by omega⟩
  have hlen : (findAvailable (n : Int) s).length = unoccupiedCount s := by
    rw [findAvailable_length]; omega
  unfold book
  rw [if_neg (by omega)]
  simp only []
  rw [if_pos (by rw [hlen]; exact hlt)]

theorem book_insufficient_witness :
    book 3 [⟨101, true⟩, ⟨102, false⟩, ⟨103, false⟩] =
      (.error 400 "Not enough rooms available", [⟨101, true⟩, ⟨102, false⟩, ⟨103, false⟩]) :=
  book_insufficient 3 [⟨101, true⟩, ⟨102, false⟩, ⟨103, false⟩]
    (by decide) (by decide) (by decide)

/-! Initialization -/

/-- The room numbers written by the initializer, as the loops produce them. -/
theorem generatedRooms_numbers :
    generatedRooms.map Room.roomNumber =
      [101, 102, 103, 104, 105, 106, 107, 108, 109, 110,
       201, 202, 203, 204, 205, 206, 207, 208, 209, 210,
       301, 302, 303, 304, 305, 306, 307, 308, 309, 310,
       401, 402, 403, 404, 405, 406, 407, 408, 409, 410,
       501, 502, 503, 504, 505, 506, 507, 508, 509, 510,
       601, 602, 603, 604, 605, 606, 607, 608, 609, 610,
       701, 702, 703, 704, 705, 706, 707, 708, 709, 710,
       801, 802, 803, 804, 805, 806, 807, 808, 809, 810,
       901, 902, 903, 904, 905, 906, 907, 908, 909, 910,
       1001, 1002, 1003, 1004, 1005, 1006, 1007] := by
  decide

/-- C4: run on the empty store, the initializer leaves exactly 97 records, all
unoccupied, with pairwise distinct room numbers, and a number is a room number
of the store exactly when it is `floor * 100 + i` with `1 ≤ floor ≤ 9` and
`1 ≤ i ≤ 10`, or `1000 + i` with `1 ≤ i ≤ 7`. -/
theorem initializeRooms_empty :
    (initializeRooms []).length = 97 ∧
    (∀ r ∈ initializeRooms [], r.occupied = false) ∧
    ((initializeRooms []).map Room.roomNumber).Nodup ∧
    ∀ n : Int, n ∈ (initializeRooms []).map Room.roomNumber ↔
      ((∃ floor i : Int, 1 ≤ floor ∧ floor ≤ 9 ∧ 1 ≤ i ∧ i ≤ 10 ∧ n = floor * 100 + i) ∨
        (∃ i : Int, 1 ≤ i ∧ i ≤ 7 ∧ n = 1000 + i)) := by
  have hinit : initializeRooms [] = generatedRooms := by
    simp [initializeRooms, countDocuments, insertMany]
  have hshape : ∀ n ∈ generatedRooms.map Room.roomNumber,
      (101 ≤ n ∧ n ≤ 910 ∧ 1 ≤ n % 100 ∧ n % 100 ≤ 10) ∨ (1001 ≤ n ∧ n ≤ 1007) := by
    decide
  rw [hinit]
  refine ⟨by decide, by decide, by decide, ?_⟩
  intro n
  constructor
  · intro hn
    rcases hshape n hn with ⟨h1, h2, h3, h4⟩ | ⟨h1, h2⟩
    · exact Or.inl ⟨n / 100, n % 100, by omega, by omega, h3, h4, by omega⟩
    · exact Or.inr ⟨n - 1000, by omega, by omega, by omega⟩
  · rw [generatedRooms_numbers]
    rintro (⟨floor, i, h1, h2, h3, h4, rfl⟩ | ⟨i, h1, h2, rfl⟩)
    · interval_cases floor <;> interval_cases i <;> decide
    · interval_cases i <;> decide

/-- C5: the initializer returns a store that holds a record as it is, and for
every store a second run gives what the first run gave. -/
theorem initializeRooms_idempotent (s : Store) :
    (s ≠ [] → initializeRooms s = s) ∧
    initializeRooms (initializeRooms s) = initializeRooms s := by
  have hne : ∀ t : Store, t ≠ [] → initializeRooms t = t := by
    intro t ht
    unfold initializeRooms countDocuments
    rw [if_neg (by simpa using ht)]
  refine ⟨hne s, ?_⟩
  cases s with
  | nil =>
    apply hne
    decide
  | cons r rs => rw [hne (r :: rs) (by simp), hne (r :: rs) (by simp)]

theorem initializeRooms_idempotent_witness :
    initializeRooms [⟨7, true⟩, ⟨7, false⟩] = [⟨7, true⟩, ⟨7, false⟩] ∧
    (initializeRooms (initializeRooms [])).length = 97 :=
  ⟨(initializeRooms_idempotent [⟨7, true⟩, ⟨7, false⟩]).1 (by decide),
    by rw [(initializeRooms_idempotent []).2]; decide⟩

/-! Reset, randomize and the inventory -/

theorem findFrom_rooms (k : Nat) (s : Store) :
    (findFrom k s).map (fun d => (⟨d.roomNumber, d.occupied⟩ : Room)) = s := by
  induction s generalizing k with
  | nil => rfl
  | cons r rs ih => simp [findFrom, ih]

theorem bookAll_roomNumbers (counts : List Int) (s : Store) :
    (bookAll counts s).map Room.roomNumber = s.map Room.roomNumber := by
  induction counts generalizing s with
  | nil => rfl
  | cons c cs ih =>
    show (bookAll cs (book c s).2).map Room.roomNumber = _
    rw [ih, book_roomNumbers]

theorem updateManyUnoccupied_roomNumbers (s : Store) :
    (updateManyUnoccupied s).map Room.roomNumber = s.map Room.roomNumber := by
  simp [updateManyUnoccupied, Function.comp_def]

theorem randomLoop_roomNumbers (coin : Nat → ℚ) (k : Nat) (ds : List Doc) (s : Store) :
    (randomLoop coin k ds s).map Room.roomNumber = s.map Room.roomNumber := by
  induction ds generalizing k s with
  | nil => rfl
  | cons d ds ih => simp [randomLoop, ih, save, setOccupied_roomNumbers]

theorem occupiedCount_le_length (s : Store) : occupiedCount s ≤ s.length :=
  List.countP_le_length _

theorem length_eq_of_roomNumbers {s t : Store}
    (h : s.map Room.roomNumber = t.map Room.roomNumber) : s.length = t.length := by
  simpa using congrArg List.length h

/-- The two steps of `stepReq` make up the handler `book`. -/
theorem stepReq_twice (count : Int) (s : Store) :
    stepReq (stepReq (.start count) s).1 (stepReq (.start count) s).2 =
      (.done (book count s).1, (book count s).2) := by
  by_cases hc : count < 1 ∨ count > 5
  · simp [stepReq, book, hc]
  · by_cases hl : ((findAvailable count s).length : Int) < count
    · simp [stepReq, book, hc, hl]
    · simp [stepReq, book, hc, hl]

/-- C6: after any sequence of booking requests on any store, `POST /reset`
answers 200 and leaves every record unoccupied, with the room numbers of the
starting store; the following `GET /rooms` lists as many documents as the store
has records, all of them unoccupied. -/
theorem reset_after_bookings (s : Store) (counts : List Int) :
    (reset (bookAll counts s)).1 = .message "All rooms have been reset" ∧
    (∀ r ∈ (reset (bookAll counts s)).2, r.occupied = false) ∧
    (reset (bookAll counts s)).2.map Room.roomNumber = s.map Room.roomNumber ∧
    ∃ body : List Doc, (getRooms (reset (bookAll counts s)).2).1 = .rooms body ∧
      body.length = s.length ∧ ∀ d ∈ body, d.occupied = false := by
  have hall : ∀ r ∈ (reset (bookAll counts s)).2, r.occupied = false := by
    intro r hr
    simp only [reset, updateManyUnoccupied, List.mem_map] at hr
    obtain ⟨r0, _, rfl⟩ := hr
    rfl
  have hnum : (reset (bookAll counts s)).2.map Room.roomNumber = s.map Room.roomNumber := by
    simp only [reset]
    rw [updateManyUnoccupied_roomNumbers, bookAll_roomNumbers]
  refine ⟨rfl, hall, hnum, find (reset (bookAll counts s)).2, rfl, ?_, ?_⟩
  · rw [find, findFrom_length]
    exact length_eq_of_roomNumbers hnum
  · intro d hd
    have hmem : (⟨d.roomNumber, d.occupied⟩ : Room) ∈ (reset (bookAll counts s)).2 := by
      have := List.mem_map_of_mem (fun d : Doc => (⟨d.roomNumber, d.occupied⟩ : Room)) hd
      rwa [find, findFrom_rooms] at this
    exact hall _ hmem

/-! Binary64 rounding -/

theorem roundHalfEven_le (x : ℚ) : (roundHalfEven x : ℚ) ≤ x + 1 / 2 := by
  have h1 := Int.floor_le x
  have h2 := Int.lt_floor_add_one x
  unfold roundHalfEven
  split_ifs <;> push_cast <;> linarith

theorem roundHalfEven_nonneg (x : ℚ) (hx : 0 ≤ x) : 0 ≤ roundHalfEven x := by
  have h0 : 0 ≤ ⌊x⌋ := Int.floor_nonneg.2 hx
  unfold roundHalfEven
  split_ifs <;> omega

theorem ulp_pos (q : ℚ) : 0 < ulp q := by
  unfold ulp; positivity

theorem ulp_le (q : ℚ) (hq : 0 < q) : ulp q ≤ q * (2 : ℚ) ^ (-52 : ℤ) + (2 : ℚ) ^ (-1074 : ℤ) := by
  unfold ulp
  have hlog : (2 : ℚ) ^ (Int.log 2 q) ≤ q := by
    have := Int.zpow_log_le_self (b := 2) (r := q) (by norm_num) hq
    simpa using this
  rcases le_total (Int.log 2 q) (-1022) with h | h
  · rw [max_eq_right h]
    have : (0:ℚ) ≤ q * (2 : ℚ) ^ (-52 : ℤ) := by positivity
    norm_num at this ⊢
    linarith
  · rw [max_eq_left h, zpow_sub₀ (by norm_num : (2:ℚ) ≠ 0)]
    have h52 : (0:ℚ) < (2:ℚ)^(52:ℤ) := by positivity
    have h1074 : (0:ℚ) < (2 : ℚ) ^ (-1074 : ℤ) := by positivity
    have : (2 : ℚ) ^ Int.log 2 q / 2 ^ (52:ℤ) ≤ q * (2 : ℚ) ^ (-52 : ℤ) := by
      rw [zpow_neg, div_eq_mul_inv]
      exact mul_le_mul_of_nonneg_right hlog (by positivity)
    linarith


theorem roundDouble_nonneg (q : ℚ) (hq : 0 ≤ q) : 0 ≤ roundDouble q := by
  unfold roundDouble
  rw [if_neg (not_lt.2 hq)]
  have h := roundHalfEven_nonneg (q / ulp q) (div_nonneg hq (ulp_pos q).le)
  have h2 : (0 : ℚ) ≤ (roundHalfEven (q / ulp q) : ℚ) := by exact_mod_cast h
  exact mul_nonneg h2 (ulp_pos q).le

theorem roundDouble_le (q : ℚ) (hq : 0 < q) :
    roundDouble q ≤ q + q * (2 : ℚ) ^ (-53 : ℤ) + (2 : ℚ) ^ (-1075 : ℤ) := by
  unfold roundDouble
  rw [if_neg (not_lt.2 hq.le)]
  have hu := ulp_pos q
  have h1 := roundHalfEven_le (q / ulp q)
  have h2 : (roundHalfEven (q / ulp q) : ℚ) * ulp q ≤ (q / ulp q + 1 / 2) * ulp q :=
    mul_le_mul_of_nonneg_right h1 hu.le
  have h3 : (q / ulp q + 1 / 2) * ulp q = q + ulp q / 2 := by
    field_simp
    ring
  have h4 := ulp_le q hq
  rw [h3] at h2
  norm_num at h4 ⊢
  linarith

theorem roundDouble_zero : roundDouble 0 = 0 := by
  simp [roundDouble, roundHalfEven]

theorem roundDouble_mul_lt (r : ℚ) (n : Nat) (hn : 0 < n) (h0 : 0 ≤ r)
    (h1 : r ≤ 1 - (2 : ℚ) ^ (-53 : ℤ)) : roundDouble (r * (n : ℚ)) < (n : ℚ) := by
  have hnq : (1 : ℚ) ≤ (n : ℚ) := by exact_mod_cast hn
  rcases eq_or_lt_of_le h0 with h | h
  · rw [← h, zero_mul, roundDouble_zero]; linarith
  · have hx : 0 < r * (n : ℚ) := by positivity
    have hb := roundDouble_le _ hx
    have hle : r * (n : ℚ) ≤ (1 - (2 : ℚ) ^ (-53 : ℤ)) * n :=
      mul_le_mul_of_nonneg_right h1 (by positivity)
    norm_num at hb hle h1 ⊢
    nlinarith

theorem log_two_eq_neg_one (r : ℚ) (h0 : 1 / 2 ≤ r) (h1 : r < 1) : Int.log 2 r = -1 := by
  have hr : 0 < r := by linarith
  have ha : (-1 : ℤ) ≤ Int.log 2 r := by
    rw [← Int.zpow_le_iff_le_log (by norm_num) hr]
    norm_num
    linarith
  have hb : Int.log 2 r < 0 := by
    rw [← Int.lt_zpow_iff_log_lt (by norm_num) hr]
    simpa using h1
  omega

theorem double_lt_one (r : ℚ) (hd : roundDouble r = r) (h0 : 0 ≤ r) (h1 : r < 1) :
    r ≤ 1 - (2 : ℚ) ^ (-53 : ℤ) := by
  rcases lt_or_le r (1 / 2) with h | h
  · norm_num
    linarith
  · have hlog := log_two_eq_neg_one r h h1
    have hu : ulp r = (2 : ℚ) ^ (-53 : ℤ) := by
      unfold ulp; rw [hlog]; norm_num
    unfold roundDouble at hd
    rw [if_neg (not_lt.2 h0), hu] at hd
    have hk : (roundHalfEven (r / (2 : ℚ) ^ (-53 : ℤ)) : ℚ) < (2 : ℚ) ^ (53 : ℕ) := by
      rw [← hd] at h1
      norm_num at h1 ⊢
      linarith
    have hk2 : roundHalfEven (r / (2 : ℚ) ^ (-53 : ℤ)) < (2 : ℤ) ^ (53 : ℕ) := by
      exact_mod_cast hk
    have hk3 : roundHalfEven (r / (2 : ℚ) ^ (-53 : ℤ)) ≤ (2 : ℤ) ^ (53 : ℕ) - 1 := by omega
    have hk4 : (roundHalfEven (r / (2 : ℚ) ^ (-53 : ℤ)) : ℚ) ≤ (2 : ℚ) ^ (53 : ℕ) - 1 := by
      exact_mod_cast hk3
    rw [← hd]
    norm_num at hk4 ⊢
    linarith


theorem log_two_eq (q : ℚ) (e : ℤ) (h0 : (2 : ℚ) ^ e ≤ q) (h1 : q < (2 : ℚ) ^ (e + 1)) :
    Int.log 2 q = e := by
  have hq : 0 < q := lt_of_lt_of_le (by positivity) h0
  have ha : e ≤ Int.log 2 q := by
    rw [← Int.zpow_le_iff_le_log (by norm_num) hq]
    simpa using h0
  have hb : Int.log 2 q < e + 1 := by
    rw [← Int.lt_zpow_iff_log_lt (by norm_num) hq]
    simpa using h1
  omega

theorem roundHalfEven_intCast (k : ℤ) : roundHalfEven (k : ℚ) = k := by
  simp [roundHalfEven]

theorem roundDouble_point7 :
    roundDouble ((3152519739159347 : ℚ) / 2 ^ 52) = (3152519739159347 : ℚ) / 2 ^ 52 := by
  have hlog : Int.log 2 ((3152519739159347 : ℚ) / 2 ^ 52) = -1 :=
    log_two_eq _ _ (by norm_num) (by norm_num)
  have hu : ulp ((3152519739159347 : ℚ) / 2 ^ 52) = (2 : ℚ) ^ (-53 : ℤ) := by
    unfold ulp; rw [hlog]; norm_num
  have hx : (3152519739159347 : ℚ) / 2 ^ 52 / (2 : ℚ) ^ (-53 : ℤ) = ((6305039478318694 : ℤ) : ℚ) := by
    norm_num
  unfold roundDouble
  rw [if_neg (by norm_num), hu, hx, roundHalfEven_intCast]
  norm_num

theorem roundDouble_point7_times10 :
    roundDouble ((3152519739159347 : ℚ) / 2 ^ 52 * 10) = 7 := by
  have hlog : Int.log 2 ((3152519739159347 : ℚ) / 2 ^ 52 * 10) = 2 :=
    log_two_eq _ _ (by norm_num) (by norm_num)
  have hu : ulp ((3152519739159347 : ℚ) / 2 ^ 52 * 10) = (2 : ℚ) ^ (-50 : ℤ) := by
    unfold ulp; rw [hlog]; norm_num
  have hx : (3152519739159347 : ℚ) / 2 ^ 52 * 10 / (2 : ℚ) ^ (-50 : ℤ) = 15762598695796735 / 2 := by
    norm_num
  have hf : ⌊(15762598695796735 / 2 : ℚ)⌋ = 7881299347898367 := by
    rw [Int.floor_eq_iff]; norm_num
  have hr : roundHalfEven (15762598695796735 / 2 : ℚ) = 7881299347898368 := by
    unfold roundHalfEven
    rw [hf]
    norm_num
  unfold roundDouble
  rw [if_neg (by norm_num), hu, hx, hr]
  norm_num

theorem roundDouble_times97 :
    roundDouble ((858933949550043 : ℚ) / 2 ^ 51 * 97) = 37 := by
  have hlog : Int.log 2 ((858933949550043 : ℚ) / 2 ^ 51 * 97) = 5 :=
    log_two_eq _ _ (by norm_num) (by norm_num)
  have hu : ulp ((858933949550043 : ℚ) / 2 ^ 51 * 97) = (2 : ℚ) ^ (-47 : ℤ) := by
    unfold ulp; rw [hlog]; norm_num
  have hx : (858933949550043 : ℚ) / 2 ^ 51 * 97 / (2 : ℚ) ^ (-47 : ℤ) =
      83316593106354171 / 16 := by
    norm_num
  have hf : ⌊(83316593106354171 / 16 : ℚ)⌋ = 5207287069147135 := by
    rw [Int.floor_eq_iff]; norm_num
  have hr : roundHalfEven (83316593106354171 / 16 : ℚ) = 5207287069147136 := by
    unfold roundHalfEven
    rw [hf]
    norm_num
  unfold roundDouble
  rw [if_neg (by norm_num), hu, hx, hr]
  norm_num

/-- The model at the double 0.38144329896907214 on the 97 rooms of the
initializer: the binary64 product is 37, so 37 rooms are sliced. -/
theorem random_initial_97 (coin : Nat → ℚ) :
    (random id ((858933949550043 : ℚ) / 2 ^ 51) coin (initializeRooms [])).1 =
      .randomized "Random occupancy updated" 37 := by
  have hlen : (find (initializeRooms [])).length = 97 := by decide
  have h := roundDouble_times97
  simp only [random, hlen, id, slice0, Nat.cast_ofNat, h]
  simp [hlen]

/-- The model at the double nearest to 0.7 on ten rooms: the exact product
lies halfway between two binary64 values and is rounded to 7, so seven rooms
are sliced. -/
theorem random_point7_ten (coin : Nat → ℚ) :
    (random id ((3152519739159347 : ℚ) / 2 ^ 52) coin
      [⟨101, false⟩, ⟨102, false⟩, ⟨103, false⟩, ⟨104, false⟩, ⟨105, false⟩,
       ⟨106, false⟩, ⟨107, false⟩, ⟨108, false⟩, ⟨109, false⟩, ⟨110, false⟩]).1 =
      .randomized "Random occupancy updated" 7 := by
  have h := roundDouble_point7_times10
  simp [random, find, findFrom, slice0, h]

/-- C7, at the empty store: `POST /random` answers `updated = 0`, which is not
below the number of rooms, 0. -/
theorem random_empty_not_lt :
    (random id 0 (fun _ => 0) []).1 = .randomized "Random occupancy updated" 0 ∧
    countDocuments [] = 0 ∧ ¬ (0 < countDocuments []) := by
  refine ⟨?_, rfl, by decide⟩
  simp [random, find, findFrom, slice0]

/-- C7, amended: on a store that holds at least one room, for a draw `r` that is
a binary64 value with `0 ≤ r < 1` and a shuffle that permutes the fetched
documents, `POST /random` answers `updated = floor(r * totalRooms)`, the product
being the binary64 product, and `updated < totalRooms`. -/
theorem random_updated_lt (shuffle : List Doc → List Doc) (r : ℚ) (coin : Nat → ℚ)
    (s : Store) (hs : s ≠ []) (hd : roundDouble r = r) (h0 : 0 ≤ r) (h1 : r < 1)
    (hp : (shuffle (find s)).Perm (find s)) :
    ∃ updated : Nat,
      (random shuffle r coin s).1 = .randomized "Random occupancy updated" updated ∧
      (updated : Int) = ⌊roundDouble (r * (countDocuments s : ℚ))⌋ ∧
      updated < countDocuments s := by
  have hpos : 0 < s.length := List.length_pos.2 hs
  have hfl0 : 0 ≤ ⌊roundDouble (r * (s.length : ℚ))⌋ :=
    Int.floor_nonneg.2 (roundDouble_nonneg _ (mul_nonneg h0 (Nat.cast_nonneg _)))
  have hfl1 : ⌊roundDouble (r * (s.length : ℚ))⌋ < (s.length : Int) := by
    rw [Int.floor_lt]
    push_cast
    exact roundDouble_mul_lt r s.length hpos h0 (double_lt_one r hd h0 h1)
  have hlen : (shuffle (find s)).length = s.length := by
    rw [hp.length_eq, find, findFrom_length]
  have hfind : (find s).length = s.length := by rw [find, findFrom_length]
  refine ⟨(slice0 (shuffle (find s)) ⌊roundDouble (r * ((find s).length : ℚ))⌋).length,
    rfl, ?_, ?_⟩
  · rw [hfind]
    unfold slice0 countDocuments
    rw [if_neg (by omega), List.length_take, hlen]
    omega
  · rw [hfind]
    unfold slice0 countDocuments
    rw [if_neg (by omega), List.length_take, hlen]
    omega

theorem random_updated_lt_witness :
    ∃ updated : Nat,
      (random List.reverse ((3152519739159347 : ℚ) / 2 ^ 52) (fun _ => 0)
        [⟨101, false⟩, ⟨102, true⟩, ⟨103, false⟩]).1
        = .randomized "Random occupancy updated" updated ∧
      (updated : Int) =
        ⌊roundDouble ((3152519739159347 : ℚ) / 2 ^ 52 *
          (countDocuments [⟨101, false⟩, ⟨102, true⟩, ⟨103, false⟩] : ℚ))⌋ ∧
      updated < countDocuments [⟨101, false⟩, ⟨102, true⟩, ⟨103, false⟩] :=
  random_updated_lt List.reverse ((3152519739159347 : ℚ) / 2 ^ 52) (fun _ => 0)
    [⟨101, false⟩, ⟨102, true⟩, ⟨103, false⟩] (by decide) roundDouble_point7
    (by norm_num) (by norm_num) (List.reverse_perm _)

/-- C8: from the empty store the initializer gives 97 unoccupied rooms; booking
3 then answers 200 with 3 documents and leaves 3 occupied and 94 unoccupied;
reset then leaves 0 occupied and 97 unoccupied. -/
theorem end_to_end :
    (initializeRooms []).length = 97 ∧
    occupiedCount (initializeRooms []) = 0 ∧
    unoccupiedCount (initializeRooms []) = 97 ∧
    (∃ booked : List Doc, (book 3 (initializeRooms [])).1 = .booked booked ∧
      booked.length = 3) ∧
    occupiedCount (book 3 (initializeRooms [])).2 = 3 ∧
    unoccupiedCount (book 3 (initializeRooms [])).2 = 94 ∧
    (reset (book 3 (initializeRooms [])).2).1 = .message "All rooms have been reset" ∧
    occupiedCount (reset (book 3 (initializeRooms [])).2).2 = 0 ∧
    unoccupiedCount (reset (book 3 (initializeRooms [])).2).2 = 97 := by
  refine ⟨by decide, by decide, by decide,
    ⟨[⟨0, 101, true⟩, ⟨1, 102, true⟩, ⟨2, 103, true⟩], by decide, by decide⟩, by decide, by decide,
    rfl, by decide, by decide⟩

/-- C9: booking (accepted or rejected), reset and randomize (for every shuffle
and every draw) keep the list of room numbers, record by record, and so the
number of records; afterwards the occupied records are at most as many as the
records. -/
theorem inventory_invariant (s : Store) (count : Int) (shuffle : List Doc → List Doc)
    (r : ℚ) (coin : Nat → ℚ) :
    ((book count s).2.map Room.roomNumber = s.map Room.roomNumber ∧
      (book count s).2.length = s.length ∧
      occupiedCount (book count s).2 ≤ s.length) ∧
    ((reset s).2.map Room.roomNumber = s.map Room.roomNumber ∧
      (reset s).2.length = s.length ∧
      occupiedCount (reset s).2 ≤ s.length) ∧
    ((random shuffle r coin s).2.map Room.roomNumber = s.map Room.roomNumber ∧
      (random shuffle r coin s).2.length = s.length ∧
      occupiedCount (random shuffle r coin s).2 ≤ s.length) := by
  have hb := book_roomNumbers count s
  have hr : (reset s).2.map Room.roomNumber = s.map Room.roomNumber :=
    updateManyUnoccupied_roomNumbers s
  have hx : (random shuffle r coin s).2.map Room.roomNumber = s.map Room.roomNumber :=
    randomLoop_roomNumbers _ _ _ _
  refine ⟨⟨hb, length_eq_of_roomNumbers hb, ?_⟩, ⟨hr, length_eq_of_roomNumbers hr, ?_⟩,
    ⟨hx, length_eq_of_roomNumbers hx, ?_⟩⟩
  · rw [← length_eq_of_roomNumbers hb]; exact occupiedCount_le_length _
  · rw [← length_eq_of_roomNumbers hr]; exact occupiedCount_le_length _
  · rw [← length_eq_of_roomNumbers hx]; exact occupiedCount_le_length _

/-- C10: on a store with two unoccupied rooms, two requests for one room each,
scheduled so that both finish their `find` before either runs its save loop,
both answer 200 with the same document in `booked`, and the number of occupied
records grows by 1, less than the 2 rooms answered. -/
theorem double_booking_race :
    ∃ (s final : Store) (c1 c2 : Int) (fetched1 fetched2 booked1 booked2 : List Doc)
      (d : Doc),
      runPair [false, true] ⟨.start c1, .start c2, s⟩ =
        ⟨.fetched fetched1, .fetched fetched2, s⟩ ∧
      runPair [false, true, false, true] ⟨.start c1, .start c2, s⟩ =
        ⟨.done (.booked booked1), .done (.booked booked2), final⟩ ∧
      d ∈ booked1 ∧ d ∈ booked2 ∧
      (occupiedCount final : Int) - (occupiedCount s : Int) < c1 + c2 :=
  ⟨[⟨101, false⟩, ⟨102, false⟩], [⟨101, true⟩, ⟨102, false⟩], 1, 1,
    [⟨0, 101, false⟩], [⟨0, 101, false⟩], [⟨0, 101, true⟩], [⟨0, 101, true⟩], ⟨0, 101, true⟩,
    by decide, by decide, by decide, by decide, by decide⟩

end BackMov
